import Mathlib

/-!
Verification of the simulation core of `src/game.js` (Zoombie-shooter).

The JavaScript source is shallowly embedded: positions and radii are
rationals (JS numbers, exact arithmetic), hit points / ammo / coins are
integers, entity containers are Lean lists.  `Math.hypot(dx,dy) < r`
comparisons are embedded as the equivalent squared-distance test.
Calls to `Math.random()` are embedded as explicit parameters (draw
streams / per-entity draw functions), so every definition stays
executable and deterministic.  Cosmetic particles carry no gameplay
state, so only their count is tracked.
-/

set_option linter.unusedVariables false

namespace ZombieShooter

/-- JS `clamp(v,a,b) = Math.max(a, Math.min(b,v))` from game.js line 49. -/
def clamp (v a b : ℚ) : ℚ := max a (min b v)

/-- Embedding of the comparison `Math.hypot(dx,dy) < r`: the Euclidean
norm is nonnegative, so the test holds iff `r` is positive and the
squared norm is below `r^2`. -/
def hypotLt (dx dy r : ℚ) : Bool :=
  decide (0 < r) && decide (dx * dx + dy * dy < r * r)

/-- Enemy archetype tag (game.js `e.type` strings). -/
inductive EnemyType
  | normal | fast | tank | spitter | bomber | boss
  deriving Repr, DecidableEq

/-- Enemy record (game.js line 229). -/
structure Enemy where
  x : ℚ
  y : ℚ
  r : ℚ
  speed : ℚ
  hp : ℤ
  etype : EnemyType
  lastSpit : ℤ
  deriving Repr, DecidableEq

/-- Embedding of `spawnEnemy(type)` (game.js lines 221-240).  The random off-screen
spawn position is passed in as `x y` (the source draws it from
`Math.random()`); stats per archetype are as in the source's branch
chain, with the `normal` default adjusting speed and hp by level. -/
def spawnEnemy (lvl : ℕ) (t : EnemyType) (x y : ℚ) : Enemy :=
  let base : Enemy :=
    { x := x, y := y, r := 18, speed := 50, hp := 1, etype := .normal, lastSpit := 0 }
  match t with
  | .fast    => { base with speed := 120, hp := 1, r := 14, etype := .fast }
  | .tank    => { base with speed := 36, hp := 4 + ((lvl / 2 : ℕ) : ℤ), r := 26, etype := .tank }
  | .spitter => { base with speed := 45, hp := 2, r := 18, etype := .spitter }
  | .bomber  => { base with speed := 40, hp := 1, r := 16, etype := .bomber }
  | .boss    => { base with speed := 25, hp := 20 + (lvl : ℤ) * 4, r := 48, etype := .boss }
  | .normal  => { base with speed := 50 + ((lvl : ℚ) - 1) * 3, hp := 1 + ((lvl / 4 : ℕ) : ℤ) }

/-- Archetype choice from one `Math.random()` draw `q` (game.js lines
248-252): normal below 0.55, fast below 0.75, spitter below 0.88,
otherwise tank. -/
def enemyTypeFromDraw (q : ℚ) : EnemyType :=
  if q < 55/100 then .normal
  else if q < 75/100 then .fast
  else if q < 88/100 then .spitter
  else .tank

/-- Wave size `enemiesToSpawn + Math.floor(level * 1.2)` (game.js line
244); `1.2 = 6/5` so the floor is natural division by 5. -/
def waveCount (lvl ets : ℕ) : ℕ := ets + 6 * lvl / 5

/-- Embedding of `spawnWave()` (game.js lines 242-255).  `old` is the enemy list
being replaced (`enemies = []` discards it), `draw i` the archetype
random for slot `i`, `pos i` the random spawn position for slot `i`.
Slot 0 is a boss whenever the level is a multiple of 5. -/
def spawnWave (old : List Enemy) (lvl ets : ℕ) (draw : ℕ → ℚ) (pos : ℕ → ℚ × ℚ) :
    List Enemy :=
  (List.range (waveCount lvl ets)).map (fun i =>
    if lvl % 5 = 0 ∧ i = 0 then spawnEnemy lvl .boss (pos i).1 (pos i).2
    else spawnEnemy lvl (enemyTypeFromDraw (draw i)) (pos i).1 (pos i).2)

/-- Weapon projectile pattern (game.js weapon `type` field). -/
inductive WType
  | bullet | shot | rocket
  deriving Repr, DecidableEq

/-- Weapon record (game.js lines 89-96); `pellets = 0` stands for the
field being absent (the source reads `w.pellets || 6`). -/
structure Weapon where
  ammo : ℤ
  maxAmmo : ℤ
  damage : ℤ
  fireRate : ℤ
  wtype : WType
  pellets : ℕ
  owned : Bool
  price : ℤ
  deriving Repr, DecidableEq

/-- The pistol entry of the weapon table (game.js line 90). -/
def pistol : Weapon :=
  { ammo := 12, maxAmmo := 12, damage := 1, fireRate := 220
    wtype := .bullet, pellets := 0, owned := true, price := 0 }

/-- The rocket entry of the weapon table (game.js line 95). -/
def rocketW : Weapon :=
  { ammo := 2, maxAmmo := 2, damage := 6, fireRate := 1000
    wtype := .rocket, pellets := 0, owned := true, price := 250 }

/-- State read and written by `shootAtMouse` (game.js lines 170-200):
the flags, the current weapon, the global `reloading` and `lastShotAt`,
and the number of projectiles in the `bullets` array (their kinematics
are cosmetic for the firing contract). -/
structure ShootS where
  gameStarted : Bool
  gameOver : Bool
  weapon : Weapon
  reloading : Bool
  lastShotAt : ℤ
  bulletCount : ℕ
  deriving Repr, DecidableEq

/-- Number of projectiles one successful shot pushes (game.js lines
183-194): one for `bullet` and `rocket`, `pellets || 6` for `shot`. -/
def projectilesPerShot (w : Weapon) : ℕ :=
  match w.wtype with
  | .bullet => 1
  | .shot => if w.pellets = 0 then 6 else w.pellets
  | .rocket => 1

/-- Embedding of `shootAtMouse()` (game.js lines 170-200).  Guards in source order:
not started / game over, weapon not owned, reloading, empty magazine
(which calls `autoReload`, whose immediate effect is `reloading = true`),
fire-rate gate; then `lastShotAt = now`, `ammo--`, projectile spawn,
and a trailing `autoReload` when the magazine just emptied. -/
def shootAtMouse (s : ShootS) (now : ℤ) : ShootS :=
  if s.gameStarted = false ∨ s.gameOver = true then s
  else if s.weapon.owned = false then s
  else if s.reloading = true then s
  else if s.weapon.ammo ≤ 0 then { s with reloading := true }
  else if now - s.lastShotAt < s.weapon.fireRate then s
  else
    let w' := { s.weapon with ammo := s.weapon.ammo - 1 }
    let s' := { s with
      weapon := w'
      lastShotAt := now
      bulletCount := s.bulletCount + projectilesPerShot w' }
    if w'.ammo ≤ 0 then { s' with reloading := true } else s'

/-- Reload timer completion (game.js lines 209 and 217): the deferred
`w.ammo = w.maxAmmo`. -/
def reloadComplete (w : Weapon) : Weapon := { w with ammo := w.maxAmmo }

/-- Ammo-pickup collection (game.js line 419):
`w.ammo = Math.min(w.maxAmmo, w.ammo + 8)`. -/
def ammoPickupRefill (w : Weapon) : Weapon :=
  { w with ammo := min w.maxAmmo (w.ammo + 8) }

/-- Level-up partial refill (game.js line 440):
`cw.ammo = Math.min(cw.maxAmmo, cw.ammo + Math.floor(cw.maxAmmo * 0.2))`;
`0.2 = 1/5`, so for the nonnegative capacities in the table the floor is
integer division by 5. -/
def levelUpRefill (w : Weapon) : Weapon :=
  { w with ammo := min w.maxAmmo (w.ammo + w.maxAmmo / 5) }

/-- Bullet record (game.js lines 184-193 and 347); `fromPlayer` encodes
the `from: 'player' | 'enemy'` tag. -/
structure Bullet where
  x : ℚ
  y : ℚ
  r : ℚ
  dmg : ℤ
  fromPlayer : Bool
  rocket : Bool
  deriving Repr, DecidableEq

/-- Pickup kind (game.js `spawnPickup` type string). -/
inductive PickupType
  | coin | ammoPack
  deriving Repr, DecidableEq

/-- Pickup record (game.js line 273). -/
structure Pickup where
  x : ℚ
  y : ℚ
  ptype : PickupType
  val : ℤ
  deriving Repr, DecidableEq

/-- Simulation state slice touched by the collision passes and
`explode` (score, coins, player hp, and the entity containers);
particles are cosmetic so only their count is kept. -/
structure GState where
  level : ℕ
  score : ℤ
  coins : ℤ
  playerHp : ℚ
  enemies : List Enemy
  bullets : List Bullet
  pickups : List Pickup
  particles : ℕ
  deriving Repr, DecidableEq

/-- Enemy sweep of `explode` (game.js lines 466-473): every enemy with
`hypot(e.x-x, e.y-y) < radius + e.r` takes `3 + level` damage; an enemy
driven to `hp <= 0` drops a coin pickup worth `3 + Math.floor(Math.random()*5)`
(the draw is `rv e`) and is spliced out.  The source iterates from the
tail of the array, so its pickups are pushed in reverse list order,
which the `++ [pickup]` on the head's branch reproduces. -/
def explodeEnemies (lvl : ℕ) (x y radius : ℚ) (rv : Enemy → ℕ) :
    List Enemy → List Enemy × List Pickup
  | [] => ([], [])
  | e :: rest =>
    let res := explodeEnemies lvl x y radius rv rest
    if hypotLt (e.x - x) (e.y - y) (radius + e.r) then
      let hp' := e.hp - (3 + (lvl : ℤ))
      if hp' ≤ 0 then
        (res.1, res.2 ++ [{ x := e.x, y := e.y, ptype := .coin, val := 3 + (rv e : ℤ) }])
      else ({ e with hp := hp' } :: res.1, res.2)
    else (e :: res.1, res.2)

/-- Embedding of `explode(x, y, scale)` (game.js lines 461-475): 40 cosmetic
particles, then the enemy damage sweep with `radius = 60 * scale`.
Score, coins and player hp are not mentioned in the source function. -/
def explode (s : GState) (x y scale : ℚ) (rv : Enemy → ℕ) : GState :=
  let res := explodeEnemies s.level x y (60 * scale) rv s.enemies
  { s with
    particles := s.particles + 40
    enemies := res.1
    pickups := s.pickups ++ res.2 }

/-- Per-enemy effect of the explosion sweep, written from the spec's
words ("applies `3+level` damage to every enemy within
`60*scaleFactor + enemyRadius` of the point; any enemy reduced to ≤0
hit points ... is removed"): `none` means removed. -/
def explodeStep (lvl : ℕ) (x y radius : ℚ) (e : Enemy) : Option Enemy :=
  if hypotLt (e.x - x) (e.y - y) (radius + e.r) then
    if e.hp - (3 + (lvl : ℤ)) ≤ 0 then none
    else some { e with hp := e.hp - (3 + (lvl : ℤ)) }
  else some e

/-- Whether the explosion sweep kills enemy `e` (in range and damage
drives hp to ≤ 0). -/
def killedByExplosion (lvl : ℕ) (x y radius : ℚ) (e : Enemy) : Bool :=
  hypotLt (e.x - x) (e.y - y) (radius + e.r) && decide (e.hp - (3 + (lvl : ℤ)) ≤ 0)

/-- Outcome of the enemy-touches-player check for one enemy (game.js
lines 357-365). -/
structure ContactRes where
  removed : Bool
  playerDamage : ℚ
  exploded : Bool
  deriving Repr, DecidableEq

/-- Enemy/player contact resolution for one enemy (game.js lines
357-365): on overlap the player takes 12 (tank) or 6 (others) damage
and the enemy is spliced out whatever its archetype; a bomber
additionally calls `explode` at its position. -/
def contactWithPlayer (px py pr : ℚ) (e : Enemy) : ContactRes :=
  if hypotLt (e.x - px) (e.y - py) (e.r + pr) then
    { removed := true
      playerDamage := if e.etype = .tank then 12 else 6
      exploded := decide (e.etype = .bomber) }
  else { removed := false, playerDamage := 0, exploded := false }

/-- Axis-aligned wall rectangle (game.js lines 70-74). -/
structure Wall where
  x : ℚ
  y : ℚ
  w : ℚ
  h : ℚ
  deriving Repr, DecidableEq

/-- The fixed wall layout (game.js lines 70-74). -/
def walls : List Wall := [⟨200, 140, 160, 14⟩, ⟨520, 300, 16, 180⟩, ⟨360, 420, 220, 14⟩]

/-- Embedding of `circleRectCollision(cx,cy,cr,rx,ry,rw,rh)` (game.js lines 277-282). -/
def circleRectCollision (cx cy cr rx ry rw rh : ℚ) : Bool :=
  let closestX := clamp cx rx (rx + rw)
  let closestY := clamp cy ry (ry + rh)
  let dx := cx - closestX
  let dy := cy - closestY
  decide (dx * dx + dy * dy < cr * cr)

/-- Player/wall resolution for one wall (game.js lines 316-323): if the
player's circle overlaps the wall, the x coordinate is snapped outside
when the center is strictly left/right of the rectangle's x extent, and
the y coordinate is snapped outside when strictly above/below —
independent `if` statements in the source. -/
def wallPush (wl : Wall) (px py pr : ℚ) : ℚ × ℚ :=
  if circleRectCollision px py pr wl.x wl.y wl.w wl.h then
    let nx := if px < wl.x then wl.x - pr - 1
              else if px > wl.x + wl.w then wl.x + wl.w + pr + 1
              else px
    let ny := if py < wl.y then wl.y - pr - 1
              else if py > wl.y + wl.h then wl.y + wl.h + pr + 1
              else py
    (nx, ny)
  else (px, py)

/-- Spec-side x component of the push-out, for the amended per-axis
description (center strictly outside the x extent is displaced to that
side, otherwise unchanged). -/
def pushOutX (wl : Wall) (px pr : ℚ) : ℚ :=
  if px < wl.x then wl.x - pr - 1
  else if wl.x + wl.w < px then wl.x + wl.w + pr + 1
  else px

/-- Spec-side y component of the push-out. -/
def pushOutY (wl : Wall) (py pr : ℚ) : ℚ :=
  if py < wl.y then wl.y - pr - 1
  else if wl.y + wl.h < py then wl.y + wl.h + pr + 1
  else py

/-- Bullet/enemy overlap test
`Math.hypot(e.x - b.x, e.y - b.y) < e.r + b.r` (game.js line 374). -/
def overlapEB (e : Enemy) (b : Bullet) : Bool :=
  hypotLt (e.x - b.x) (e.y - b.y) (e.r + b.r)

/-- Inner bullet scan of the bullets-hitting-enemies pass (game.js
lines 371-389): the source walks `j` from the end of the bullet array
down and acts on the first player bullet overlapping `e`, i.e. the
overlapping player bullet of highest index.  Returns that index and
bullet. -/
def findHit (e : Enemy) : List Bullet → Option (ℕ × Bullet)
  | [] => none
  | b :: bs =>
    match findHit e bs with
    | some (j, b') => some (j + 1, b')
    | none => if b.fromPlayer && overlapEB e b then some (0, b) else none

/-- Coin reward for a bullet kill (game.js line 380); `rg` is the draw
`Math.floor(Math.random()*3)`. -/
def coinGain (e : Enemy) (rg : ℕ) : ℤ :=
  if e.etype = .boss then 50 else if e.etype = .tank then 8 else 3 + (rg : ℤ)

/-- Score reward for a bullet kill (game.js line 382). -/
def scoreGain (e : Enemy) : ℤ := if e.etype = .boss then 200 else 10

/-- Body of the outer loop of the bullets-hitting-enemies pass for the
enemy at index `i` (game.js lines 369-391): find the hit bullet, apply
its damage to the enemy in place, spawn 4 blood particles, splice the
bullet; if the enemy's hp dropped to ≤ 0, grant coins and score, push a
coin pickup, run `explode` first when it is a bomber (the dying enemy
is still in the array at that point, exactly as in the source), then
splice index `i`. -/
def processEnemy (rg : ℕ) (rv : Enemy → ℕ) (i : ℕ) (s : GState) : GState :=
  match s.enemies[i]? with
  | none => s
  | some e =>
    match findHit e s.bullets with
    | none => s
    | some (j, b) =>
      let e' := { e with hp := e.hp - b.dmg }
      let s1 := { s with
        enemies := s.enemies.set i e'
        bullets := s.bullets.eraseIdx j
        particles := s.particles + 4 }
      if e'.hp ≤ 0 then
        let s2 := { s1 with
          coins := s1.coins + coinGain e rg
          score := s1.score + scoreGain e
          pickups := s1.pickups ++
            [{ x := e.x, y := e.y, ptype := .coin, val := coinGain e rg }] }
        let s3 := if e.etype = .bomber then explode s2 e.x e.y 1 rv else s2
        { s3 with enemies := s3.enemies.eraseIdx i }
      else s1

/-- Outer loop of the bullets-hitting-enemies pass: `i` runs from
`enemies.length - 1` down to 0; the argument of `bhLoop` is the number
of indices still to visit, so `bhLoop rgF rv (k+1)` visits index `k`
next. -/
def bhLoop (rgF : ℕ → ℕ) (rv : Enemy → ℕ) : ℕ → GState → GState
  | 0, s => s
  | k + 1, s => bhLoop rgF rv k (processEnemy (rgF k) rv k s)

/-- The whole bullets-hitting-enemies pass (game.js lines 369-391). -/
def bulletsHitEnemies (rgF : ℕ → ℕ) (rv : Enemy → ℕ) (s : GState) : GState :=
  bhLoop rgF rv s.enemies.length s

/-- Shop purchase handler (game.js lines 549-557): returns the new coin
balance, the new owned flag, and whether the purchase succeeded. -/
def buyWeapon (coins price : ℤ) (owned : Bool) : ℤ × Bool × Bool :=
  if price ≤ coins then (coins - price, true, true) else (coins, owned, false)

/-- Coin credit for a bullet kill (game.js line 381). -/
def killRewardCoins (coins : ℤ) (e : Enemy) (rg : ℕ) : ℤ := coins + coinGain e rg

/-- Coin credit for collecting a coin pickup (game.js line 416). -/
def collectCoinPickup (coins : ℤ) (v : ℤ) : ℤ := coins + v

/-- Level-up coin bonus (game.js line 437). -/
def waveBonus (coins : ℤ) : ℤ := coins + 5

/-- Player-health / game-over slice of the per-frame state; `sfx`
counts how many times the game-over branch fired its side effects. -/
structure RunS where
  hp : ℚ
  gameOver : Bool
  sfx : ℕ
  deriving Repr, DecidableEq

/-- Damage the player takes in one frame, from hit counts: `a` tank
contacts (12 each, game.js line 359), `b` other contacts (6 each), `c`
enemy bullets (8 each, game.js line 397). -/
def stepDamage (h : ℕ × ℕ × ℕ) : ℚ := 12 * h.1 + 6 * h.2.1 + 8 * h.2.2

/-- The game-over check (game.js lines 444-447):
`if(player.hp <= 0 && !gameOver){ gameOver = true; playSfx(..); }`. -/
def gameOverCheck (s : RunS) : RunS :=
  if s.hp ≤ 0 ∧ s.gameOver = false then { s with gameOver := true, sfx := s.sfx + 1 } else s

/-- One frame of the health/game-over slice: subtract the frame's
damage, then run the game-over check. -/
def simStep (s : RunS) (h : ℕ × ℕ × ℕ) : RunS :=
  gameOverCheck { s with hp := s.hp - stepDamage h }

/-- Run a list of frames. -/
def runSim (s : RunS) (l : List (ℕ × ℕ × ℕ)) : RunS := l.foldl simStep s

/-- Initial player state: `hp = maxHp = 100` (game.js line 79), game
not over, no side effect fired. -/
def run0 : RunS := { hp := 100, gameOver := false, sfx := 0 }

/-- Tank of the double-damage scenario: level-1 tank at (300, 0)
(hp 4, radius 26), far outside the bomber's explosion radius. -/
def cexTank : Enemy := spawnEnemy 1 .tank 300 0

/-- Bomber of the double-damage scenario, at the origin (hp 1,
radius 16). -/
def cexBomber : Enemy := spawnEnemy 1 .bomber 0 0

/-- Normal enemy of the double-damage scenario at (0, 40), inside the
bomber's explosion radius `60 + 18` but clear of every bullet. -/
def cexNormal : Enemy := spawnEnemy 1 .normal 0 40

/-- Unit-damage player bullet overlapping the tank. -/
def cexBT : Bullet :=
  { x := 300, y := 0, r := 4, dmg := 1, fromPlayer := true, rocket := false }

/-- Unit-damage player bullet overlapping the bomber. -/
def cexBB : Bullet :=
  { x := 0, y := 0, r := 4, dmg := 1, fromPlayer := true, rocket := false }

/-- Double-damage scenario state: enemies `[normal, bomber, tank]`,
player bullets two on the tank and one on the bomber. -/
def cexS : GState :=
  { level := 1
    score := 0
    coins := 0
    playerHp := 100
    enemies := [cexNormal, cexBomber, cexTank]
    bullets := [cexBT, cexBT, cexBB]
    pickups := []
    particles := 0 }

/-! ## Theorems -/

/-- Invariant of the health/game-over slice: health at most the 100
maximum, and the game-over side effect fired exactly when the flag is
set. -/
def RInv (s : RunS) : Prop :=
  s.hp ≤ 100 ∧ (s.gameOver = false → s.sfx = 0) ∧ (s.gameOver = true → s.sfx = 1)

lemma stepDamage_nonneg (h : ℕ × ℕ × ℕ) : 0 ≤ stepDamage h := by
  unfold stepDamage; positivity

lemma RInv_simStep {s : RunS} (hs : RInv s) (h : ℕ × ℕ × ℕ) : RInv (simStep s h) := by
  obtain ⟨h100, hf, ht⟩ := hs
  have hd := stepDamage_nonneg h
  unfold simStep gameOverCheck
  split_ifs with hc
  · exact ⟨by simp; linarith, by simp, fun _ => by simp [hf hc.2]⟩
  · exact ⟨by simp; linarith, hf, ht⟩

lemma RInv_runSim {s : RunS} (hs : RInv s) (l : List (ℕ × ℕ × ℕ)) :
    RInv (runSim s l) := by
  induction l generalizing s with
  | nil => exact hs
  | cons h t ih => exact ih (RInv_simStep hs h)

/-- C1: whenever a fire request succeeds (projectiles are spawned), the
weapon's ammo after the call is its ammo before the call minus 1 and is
nonnegative; and while the reloading flag is set, a fire request is a
complete no-op. -/
theorem fire_decrements_ammo (s : ShootS) (now : ℤ) :
    (s.reloading = true → shootAtMouse s now = s) ∧
    ((shootAtMouse s now).bulletCount ≠ s.bulletCount →
      (shootAtMouse s now).weapon.ammo = s.weapon.ammo - 1 ∧
      0 ≤ (shootAtMouse s now).weapon.ammo) := by
  constructor
  · intro hr
    unfold shootAtMouse
    split_ifs <;> simp_all
  · unfold shootAtMouse
    split_ifs with h1 h2 h3 h4 h5
    · simp
    · simp
    · simp
    · simp
    · simp
    · intro hb
      by_cases h6 : s.weapon.ammo - 1 ≤ 0 <;> simp [h6] <;> omega

/-- Witness for C1 at a concrete state: firing the full pistol at time
1000 spawns a projectile and leaves 11 rounds. -/
theorem fire_decrements_ammo_witness :
    (shootAtMouse ⟨true, false, pistol, false, 0, 0⟩ 1000).weapon.ammo = 12 - 1 ∧
    0 ≤ (shootAtMouse ⟨true, false, pistol, false, 0, 0⟩ 1000).weapon.ammo := by
  exact (fire_decrements_ammo ⟨true, false, pistol, false, 0, 0⟩ 1000).2 (by decide)

/-- C2 counterexample: a `normal` enemy with positive hit points that
touches the player is removed — contact removal is not special to the
bomber archetype. -/
theorem contact_removes_normal_cex :
    (spawnEnemy 1 .normal 100 100).etype = EnemyType.normal ∧
    0 < (spawnEnemy 1 .normal 100 100).hp ∧
    (contactWithPlayer 100 100 16 (spawnEnemy 1 .normal 100 100)).removed = true := by
  norm_num [spawnEnemy, contactWithPlayer, hypotLt]

/-- C2 amended: every enemy, of any archetype, is removed on contact
with the player (taking 12 contact damage from a tank and 6 from any
other archetype); the bomber alone additionally triggers an explosion;
an enemy not overlapping the player is untouched by the contact
check. -/
theorem contact_removal_spec (px py pr : ℚ) (e : Enemy) :
    ((contactWithPlayer px py pr e).removed = true ↔
      hypotLt (e.x - px) (e.y - py) (e.r + pr) = true) ∧
    ((contactWithPlayer px py pr e).exploded = true ↔
      (hypotLt (e.x - px) (e.y - py) (e.r + pr) = true ∧ e.etype = EnemyType.bomber)) ∧
    (contactWithPlayer px py pr e).playerDamage =
      (if hypotLt (e.x - px) (e.y - py) (e.r + pr) = true then
        (if e.etype = EnemyType.tank then 12 else 6) else 0) := by
  unfold contactWithPlayer
  split_ifs with h <;> simp_all

/-- Witness for C2's amended theorem: a bomber touching the player is
removed and explodes. -/
theorem contact_removal_spec_witness :
    (contactWithPlayer 100 100 16 (spawnEnemy 1 .bomber 100 100)).removed = true ∧
    (contactWithPlayer 100 100 16 (spawnEnemy 1 .bomber 100 100)).exploded = true := by
  refine ⟨(contact_removal_spec 100 100 16 (spawnEnemy 1 .bomber 100 100)).1.mpr
      (by norm_num [spawnEnemy, hypotLt]),
    (contact_removal_spec 100 100 16 (spawnEnemy 1 .bomber 100 100)).2.1.mpr
      ⟨by norm_num [spawnEnemy, hypotLt], by norm_num [spawnEnemy]⟩⟩

/-- C3: `spawnWave` ignores (clears) the previous enemy list and
produces exactly `enemiesToSpawn + floor(level * 1.2)` enemies; when
the level is a positive multiple of 5, the first spawned enemy is a
boss with `20 + 4*level` hit points. -/
theorem spawnWave_count_boss (old : List Enemy) (lvl ets : ℕ)
    (draw : ℕ → ℚ) (pos : ℕ → ℚ × ℚ) :
    (spawnWave old lvl ets draw pos).length = ets + 6 * lvl / 5 ∧
    spawnWave old lvl ets draw pos = spawnWave [] lvl ets draw pos ∧
    (lvl % 5 = 0 → 0 < lvl →
      (spawnWave old lvl ets draw pos).head? =
        some (spawnEnemy lvl .boss (pos 0).1 (pos 0).2) ∧
      (spawnEnemy lvl EnemyType.boss (pos 0).1 (pos 0).2).etype = EnemyType.boss ∧
      (spawnEnemy lvl EnemyType.boss (pos 0).1 (pos 0).2).hp = 20 + 4 * (lvl : ℤ)) := by
  refine ⟨by simp [spawnWave, waveCount], rfl, fun h5 hpos => ?_⟩
  obtain ⟨k, hk⟩ : ∃ k, waveCount lvl ets = k + 1 := by
    have h5' : 5 ≤ lvl := Nat.le_of_dvd hpos (Nat.dvd_of_mod_eq_zero h5)
    have h6 : 6 ≤ 6 * lvl / 5 := by
      calc 6 = 30 / 5 := by norm_num
      _ ≤ 6 * lvl / 5 := Nat.div_le_div_right (by omega)
    exact ⟨waveCount lvl ets - 1, by unfold waveCount; omega⟩
  refine ⟨?_, rfl, by simp [spawnEnemy]; ring⟩
  unfold spawnWave
  rw [hk, List.range_succ_eq_map, List.map_cons, List.head?_cons]
  simp [h5]

/-- Witness for C3: at level 5 with the base quota 6, the wave has
`6 + floor(5*1.2) = 12` enemies and opens with a boss of 40 hp. -/
theorem spawnWave_count_boss_witness :
    (spawnWave [] 5 6 (fun _ => 0) (fun _ => (0, 0))).length = 12 ∧
    (spawnWave [] 5 6 (fun _ => 0) (fun _ => (0, 0))).head? =
      some (spawnEnemy 5 .boss 0 0) ∧
    (spawnEnemy 5 EnemyType.boss 0 0).hp = 40 := by
  have h := spawnWave_count_boss [] 5 6 (fun _ => 0) (fun _ => (0, 0))
  have h3 := h.2.2 (by norm_num) (by norm_num)
  exact ⟨h.1, h3.1, h3.2.2.trans (by norm_num)⟩

lemma explodeEnemies_eq (lvl : ℕ) (x y radius : ℚ) (rv : Enemy → ℕ) (l : List Enemy) :
    explodeEnemies lvl x y radius rv l =
      (l.filterMap (explodeStep lvl x y radius),
       ((l.filter (killedByExplosion lvl x y radius)).map
         (fun e => ({ x := e.x, y := e.y, ptype := .coin, val := 3 + (rv e : ℤ) } : Pickup))).reverse) := by
  induction l with
  | nil => rfl
  | cons e rest ih =>
    by_cases h1 : hypotLt (e.x - x) (e.y - y) (radius + e.r) = true
    · by_cases h2 : e.hp - (3 + (lvl : ℤ)) ≤ 0
      · simp [explodeEnemies, ih, explodeStep, killedByExplosion, h1, h2]
      · simp [explodeEnemies, ih, explodeStep, killedByExplosion, h1, h2]
    · simp [explodeEnemies, ih, explodeStep, killedByExplosion, h1]

/-- C4: in an `explode(position, scale)` call, every enemy of the list
at call time is processed exactly once: those within
`60*scale + enemyRadius` of the position take exactly `3 + level`
damage, the rest are untouched; every enemy whose hit points thereby
drop to ≤ 0 is removed from the resulting enemy list and a coin pickup
at its position is among the pickups the call appends. -/
theorem explode_each_enemy_once (s : GState) (x y scale : ℚ) (rv : Enemy → ℕ) :
    (explode s x y scale rv).enemies =
      s.enemies.filterMap (explodeStep s.level x y (60 * scale)) ∧
    (explode s x y scale rv).pickups =
      s.pickups ++
        ((s.enemies.filter (killedByExplosion s.level x y (60 * scale))).map
          (fun e => ({ x := e.x, y := e.y, ptype := .coin, val := 3 + (rv e : ℤ) } : Pickup))).reverse ∧
    (∀ e ∈ s.enemies,
      hypotLt (e.x - x) (e.y - y) (60 * scale + e.r) = true →
      e.hp - (3 + (s.level : ℤ)) ≤ 0 →
      ({ x := e.x, y := e.y, ptype := .coin, val := 3 + (rv e : ℤ) } : Pickup) ∈
        (explode s x y scale rv).pickups) := by
  have hEq := explodeEnemies_eq s.level x y (60 * scale) rv s.enemies
  refine ⟨?_, ?_, ?_⟩
  · show (explodeEnemies s.level x y (60 * scale) rv s.enemies).1 = _
    rw [hEq]
  · show s.pickups ++ (explodeEnemies s.level x y (60 * scale) rv s.enemies).2 = _
    rw [hEq]
  · intro e he h1 h2
    show _ ∈ s.pickups ++ (explodeEnemies s.level x y (60 * scale) rv s.enemies).2
    rw [hEq]
    refine List.mem_append_right _ ?_
    rw [List.mem_reverse]
    exact List.mem_map_of_mem _
      (List.mem_filter.mpr ⟨he, by simp [killedByExplosion, h1, h2]⟩)

/-- Witness for C4: exploding at a bomber's own position at level 1
kills it (1 hp against 4 damage) and drops a coin pickup there. -/
theorem explode_each_enemy_once_witness :
    ({ x := 0, y := 0, ptype := .coin, val := 3 } : Pickup) ∈
      (explode ⟨1, 0, 0, 100, [spawnEnemy 1 .bomber 0 0], [], [], 0⟩
        0 0 1 (fun _ => 0)).pickups := by
  have h := (explode_each_enemy_once
    ⟨1, 0, 0, 100, [spawnEnemy 1 .bomber 0 0], [], [], 0⟩ 0 0 1 (fun _ => 0)).2.2
    (spawnEnemy 1 .bomber 0 0) (by simp)
    (by norm_num [spawnEnemy, hypotLt]) (by norm_num [spawnEnemy])
  simpa [spawnEnemy] using h

/-- C5: starting from full health, over any run of frames the player's
health never exceeds `maxHp = 100`; the game-over side effect fires at
most once, and the flag is set exactly when it has fired; a frame sets
the flag iff it was already set or the frame's damage left health ≤ 0;
and re-running the check once the flag is set changes nothing. -/
theorem health_capped_gameOver_once (l : List (ℕ × ℕ × ℕ)) :
    (runSim run0 l).hp ≤ 100 ∧
    (runSim run0 l).sfx ≤ 1 ∧
    ((runSim run0 l).gameOver = true ↔ (runSim run0 l).sfx = 1) ∧
    (∀ s : RunS, s.gameOver = true → gameOverCheck s = s) ∧
    (∀ (s : RunS) (h : ℕ × ℕ × ℕ),
      (simStep s h).gameOver = true ↔
        (s.gameOver = true ∨ s.hp - stepDamage h ≤ 0)) := by
  have hInv : RInv (runSim run0 l) :=
    RInv_runSim ⟨by norm_num [run0], fun _ => rfl, by simp [run0]⟩ l
  obtain ⟨h100, hf, ht⟩ := hInv
  refine ⟨h100, ?_, ⟨ht, fun h1 => ?_⟩, fun s hgo => ?_, fun s h => ?_⟩
  · rcases hg : (runSim run0 l).gameOver with _ | _
    · simp [hf hg]
    · simp [ht hg]
  · rcases hg : (runSim run0 l).gameOver with _ | _
    · rw [hf hg] at h1; exact absurd h1 (by norm_num)
    · rfl
  · unfold gameOverCheck
    rw [if_neg]
    simp [hgo]
  · rcases hg : s.gameOver with _ | _
    · simp [simStep, gameOverCheck, hg]
      split_ifs with hc <;> simp_all
    · simp [simStep, gameOverCheck, hg]

/-- Witness for C5: after one frame with a single tank contact, health
is 88 and the game is not over; the check is a no-op on a game-over
state. -/
theorem health_capped_gameOver_once_witness :
    (runSim run0 [(1, 0, 0)]).hp ≤ 100 ∧
    gameOverCheck ⟨-2, true, 1⟩ = ⟨-2, true, 1⟩ := by
  exact ⟨(health_capped_gameOver_once [(1, 0, 0)]).1,
    (health_capped_gameOver_once []).2.2.2.1 ⟨-2, true, 1⟩ rfl⟩

/-- C6: every ammo-modifying operation keeps the current weapon's ammo
within `[0, maxAmmo]`: firing (from any in-range state), reload
completion, ammo-pickup collection (`min(maxAmmo, ammo+8)`), and the
level-up partial refill (`min(maxAmmo, ammo + floor(maxAmmo*0.2))`). -/
theorem ammo_in_bounds (s : ShootS) (now : ℤ) (w : Weapon) :
    (0 ≤ s.weapon.ammo → s.weapon.ammo ≤ s.weapon.maxAmmo →
      0 ≤ (shootAtMouse s now).weapon.ammo ∧
        (shootAtMouse s now).weapon.ammo ≤ (shootAtMouse s now).weapon.maxAmmo) ∧
    (0 ≤ w.maxAmmo →
      0 ≤ (reloadComplete w).ammo ∧
        (reloadComplete w).ammo ≤ (reloadComplete w).maxAmmo) ∧
    (0 ≤ w.ammo → w.ammo ≤ w.maxAmmo →
      0 ≤ (ammoPickupRefill w).ammo ∧
        (ammoPickupRefill w).ammo ≤ (ammoPickupRefill w).maxAmmo) ∧
    (0 ≤ w.ammo → w.ammo ≤ w.maxAmmo →
      0 ≤ (levelUpRefill w).ammo ∧
        (levelUpRefill w).ammo ≤ (levelUpRefill w).maxAmmo) := by
  refine ⟨fun h0 hm => ?_, fun hm => ?_, fun h0 hm => ?_, fun h0 hm => ?_⟩
  · unfold shootAtMouse
    split_ifs with h1 h2 h3 h4 h5
    · exact ⟨h0, hm⟩
    · exact ⟨h0, hm⟩
    · exact ⟨h0, hm⟩
    · exact ⟨h0, hm⟩
    · exact ⟨h0, hm⟩
    · by_cases h6 : s.weapon.ammo - 1 ≤ 0 <;> simp [h6] <;> omega
  · unfold reloadComplete; exact ⟨hm, le_refl _⟩
  · unfold ammoPickupRefill; simp only; omega
  · unfold levelUpRefill; simp only; omega

/-- Witness for C6 at the rocket launcher (2/2 ammo): firing leaves 1,
reload completion restores 2, pickup and level-up refills stay at the
2-round cap. -/
theorem ammo_in_bounds_witness :
    (0 ≤ (shootAtMouse ⟨true, false, rocketW, false, 0, 0⟩ 1000).weapon.ammo ∧
      (shootAtMouse ⟨true, false, rocketW, false, 0, 0⟩ 1000).weapon.ammo ≤
        (shootAtMouse ⟨true, false, rocketW, false, 0, 0⟩ 1000).weapon.maxAmmo) ∧
    (0 ≤ (reloadComplete rocketW).ammo ∧
      (reloadComplete rocketW).ammo ≤ (reloadComplete rocketW).maxAmmo) ∧
    (0 ≤ (ammoPickupRefill rocketW).ammo ∧
      (ammoPickupRefill rocketW).ammo ≤ (ammoPickupRefill rocketW).maxAmmo) ∧
    (0 ≤ (levelUpRefill rocketW).ammo ∧
      (levelUpRefill rocketW).ammo ≤ (levelUpRefill rocketW).maxAmmo) := by
  have h := ammo_in_bounds ⟨true, false, rocketW, false, 0, 0⟩ 1000 rocketW
  exact ⟨h.1 (by decide) (by decide), h.2.1 (by decide),
    h.2.2.1 (by decide) (by decide), h.2.2.2 (by decide) (by decide)⟩

/-- C7: a purchase with `coins < price` is rejected leaving the balance
and the owned flag unchanged; with `price ≤ coins` it succeeds, debits
exactly the price and sets the owned flag; and every other
currency-touching operation of the simulation (bullet-kill reward, coin
pickup collection with the nonnegative values the game spawns, level-up
bonus) never decreases the balance. -/
theorem purchase_spec (coins price : ℤ) (owned : Bool) (e : Enemy) (rg : ℕ) (v : ℤ) :
    (coins < price → buyWeapon coins price owned = (coins, owned, false)) ∧
    (price ≤ coins → buyWeapon coins price owned = (coins - price, true, true)) ∧
    coins ≤ killRewardCoins coins e rg ∧
    (0 ≤ v → coins ≤ collectCoinPickup coins v) ∧
    coins ≤ waveBonus coins ∧
    0 ≤ coinGain e rg := by
  refine ⟨fun h => ?_, fun h => ?_, ?_, fun h => ?_, ?_, ?_⟩
  · unfold buyWeapon; rw [if_neg (by omega)]
  · unfold buyWeapon; rw [if_pos h]
  · unfold killRewardCoins coinGain; split_ifs <;> omega
  · unfold collectCoinPickup; omega
  · unfold waveBonus; omega
  · unfold coinGain; split_ifs <;> omega

/-- Witness for C7: buying the SMG (price 50) with 60 coins succeeds
and leaves 10 coins; buying it with 40 coins is rejected. -/
theorem purchase_spec_witness :
    buyWeapon 60 50 false = (10, true, true) ∧
    buyWeapon 40 50 false = (40, false, false) := by
  refine ⟨((purchase_spec 60 50 false (spawnEnemy 1 .normal 0 0) 0 0).2.1 (by decide)).trans ?_,
    (purchase_spec 40 50 false (spawnEnemy 1 .normal 0 0) 0 0).1 (by decide)⟩
  norm_num

/-- C8 counterexample: the player at (195,135) with radius 16 overlaps
the corner of the first wall (200,140,160,14); the resolution moves the
player to (183,123), displacing BOTH coordinates, so the push-out is
not restricted to the single axis of smaller penetration. -/
theorem wallPush_both_axes_cex :
    (⟨200, 140, 160, 14⟩ : Wall) ∈ walls ∧
    circleRectCollision 195 135 16 200 140 160 14 = true ∧
    wallPush ⟨200, 140, 160, 14⟩ 195 135 16 = (183, 123) ∧
    (183 : ℚ) ≠ 195 ∧ (123 : ℚ) ≠ 135 := by
  norm_num [walls, wallPush, circleRectCollision, clamp, min_def, max_def]

/-- C8 amended: on overlap each axis is resolved independently — the x
coordinate is snapped just outside the wall exactly when the player's
center lies strictly left or right of the wall's x extent (otherwise it
is unchanged), and likewise for y; both axes may be displaced in the
same resolution, and no penetration-depth comparison takes place. -/
theorem wallPush_axis_independent (wl : Wall) (px py pr : ℚ) :
    wallPush wl px py pr =
      (if circleRectCollision px py pr wl.x wl.y wl.w wl.h = true then
        (pushOutX wl px pr, pushOutY wl py pr)
      else (px, py)) := by
  unfold wallPush pushOutX pushOutY
  rfl

lemma findHit_none_spec (e : Enemy) (bs : List Bullet) (h : findHit e bs = none) :
    ∀ (k : ℕ) (b' : Bullet), bs[k]? = some b' → b'.fromPlayer = true →
      overlapEB e b' = false := by
  induction bs with
  | nil => intro k b' hk; simp at hk
  | cons b rest ih =>
    intro k b' hk hp'
    cases hfr : findHit e rest with
    | some jb => simp only [findHit, hfr] at h; exact absurd h (by simp)
    | none =>
      simp only [findHit, hfr] at h
      by_cases hc : (b.fromPlayer && overlapEB e b) = true
      · rw [if_pos hc] at h; cases h
      · cases k with
        | zero =>
          simp only [List.getElem?_cons_zero, Option.some.injEq] at hk
          subst hk
          simp only [Bool.and_eq_true, hp', true_and] at hc
          exact Bool.not_eq_true _ ▸ (by simpa using hc)
        | succ k' =>
          exact ih hfr k' b' (by simpa using hk) hp'

lemma findHit_some_spec (e : Enemy) (bs : List Bullet) (j : ℕ) (b : Bullet)
    (h : findHit e bs = some (j, b)) :
    bs[j]? = some b ∧ b.fromPlayer = true ∧ overlapEB e b = true ∧
    ∀ (k : ℕ) (b' : Bullet), j < k → bs[k]? = some b' → b'.fromPlayer = true →
      overlapEB e b' = false := by
  induction bs generalizing j with
  | nil => simp [findHit] at h
  | cons hd rest ih =>
    cases hfr : findHit e rest with
    | some jb =>
      obtain ⟨j', b'⟩ := jb
      simp only [findHit, hfr, Option.some.injEq, Prod.mk.injEq] at h
      obtain ⟨hj, hb⟩ := h
      subst hb
      obtain ⟨h1, h2, h3, h4⟩ := ih j' hfr
      subst hj
      refine ⟨by simpa using h1, h2, h3, ?_⟩
      intro k b'' hk hget hp
      cases k with
      | zero => omega
      | succ k' => exact h4 k' b'' (by omega) (by simpa using hget) hp
    | none =>
      simp only [findHit, hfr] at h
      by_cases hc : (hd.fromPlayer && overlapEB e hd) = true
      · rw [if_pos hc] at h
        simp only [Option.some.injEq, Prod.mk.injEq] at h
        obtain ⟨hj, hb⟩ := h
        subst hb
        subst hj
        simp only [Bool.and_eq_true] at hc
        refine ⟨by simp, hc.1, hc.2, ?_⟩
        intro k b'' hk hget hp
        cases k with
        | zero => omega
        | succ k' => exact findHit_none_spec e rest hfr k' b'' (by simpa using hget) hp
      · rw [if_neg hc] at h; cases h

lemma processEnemy_hit (rg : ℕ) (rv : Enemy → ℕ) (i : ℕ) (s : GState)
    (e : Enemy) (j : ℕ) (b : Bullet)
    (he : s.enemies[i]? = some e) (hf : findHit e s.bullets = some (j, b)) :
    (processEnemy rg rv i s).bullets = s.bullets.eraseIdx j ∧
    (0 < e.hp - b.dmg →
      (processEnemy rg rv i s).enemies =
        s.enemies.set i { e with hp := e.hp - b.dmg }) := by
  simp only [processEnemy, he, hf]
  split_ifs with hk hbm
  · exact ⟨rfl, fun hlt => absurd hk (by omega)⟩
  · exact ⟨rfl, fun hlt => absurd hk (by omega)⟩
  · exact ⟨rfl, fun _ => rfl⟩

lemma processEnemy_no_hit (rg : ℕ) (rv : Enemy → ℕ) (i : ℕ) (s : GState) :
    (s.enemies[i]? = none → processEnemy rg rv i s = s) ∧
    (∀ e, s.enemies[i]? = some e → findHit e s.bullets = none →
      processEnemy rg rv i s = s) := by
  constructor
  · intro he; simp only [processEnemy, he]
  · intro e he hf; simp only [processEnemy, he, hf]

lemma processEnemy_bullets_shrink (rg : ℕ) (rv : Enemy → ℕ) (i : ℕ) (s : GState) :
    ((processEnemy rg rv i s).bullets).Sublist s.bullets := by
  cases he : s.enemies[i]? with
  | none => rw [(processEnemy_no_hit rg rv i s).1 he]
  | some e =>
    cases hf : findHit e s.bullets with
    | none => rw [(processEnemy_no_hit rg rv i s).2 e he hf]
    | some jb =>
      obtain ⟨j, b⟩ := jb
      rw [(processEnemy_hit rg rv i s e j b he hf).1]
      exact List.eraseIdx_sublist _ _

lemma bhLoop_bullets_sublist (rgF : ℕ → ℕ) (rv : Enemy → ℕ) :
    ∀ (n : ℕ) (s : GState), ((bhLoop rgF rv n s).bullets).Sublist s.bullets := by
  intro n
  induction n with
  | zero => intro s; exact List.Sublist.refl _
  | succ k ih =>
    intro s
    exact (ih _).trans (processEnemy_bullets_shrink (rgF k) rv k s)

/-- C9 amended: in the bullets-hitting-enemies pass, each outer-loop
VISIT applies at most one bullet's damage to the visited enemy — the
scan acts on exactly the first overlapping player bullet of its
(descending-index) scan order, every bullet later in the scan than the
chosen one is a non-overlapping or non-player bullet, and when no
player bullet overlaps the enemy nothing changes; the chosen bullet is
removed from the bullet list at the moment it hits, the enemy loses
exactly that one bullet's damage (kept in the list when it survives),
and across the whole pass the bullet list only loses elements
(a sublist of the input), so a bullet damages at most one enemy per
pass.  A per-enemy per-pass bound does NOT hold: mid-pass splices (a
bullet-killed bomber's explosion) can shift an already-hit enemy below
the descending cursor so it is visited again, as the counterexample
shows. -/
theorem bullet_pass_one_hit :
    (∀ (e : Enemy) (bs : List Bullet) (j : ℕ) (b : Bullet),
      findHit e bs = some (j, b) →
        bs[j]? = some b ∧ b.fromPlayer = true ∧ overlapEB e b = true ∧
        ∀ (k : ℕ) (b' : Bullet), j < k → bs[k]? = some b' →
          b'.fromPlayer = true → overlapEB e b' = false) ∧
    (∀ (e : Enemy) (bs : List Bullet), findHit e bs = none →
      ∀ (k : ℕ) (b' : Bullet), bs[k]? = some b' → b'.fromPlayer = true →
        overlapEB e b' = false) ∧
    (∀ (rg : ℕ) (rv : Enemy → ℕ) (i : ℕ) (s : GState) (e : Enemy) (j : ℕ) (b : Bullet),
      s.enemies[i]? = some e → findHit e s.bullets = some (j, b) →
        (processEnemy rg rv i s).bullets = s.bullets.eraseIdx j ∧
        (0 < e.hp - b.dmg →
          (processEnemy rg rv i s).enemies =
            s.enemies.set i { e with hp := e.hp - b.dmg })) ∧
    (∀ (rg : ℕ) (rv : Enemy → ℕ) (i : ℕ) (s : GState) (e : Enemy),
      s.enemies[i]? = some e → findHit e s.bullets = none →
        processEnemy rg rv i s = s) ∧
    (∀ (rgF : ℕ → ℕ) (rv : Enemy → ℕ) (s : GState),
      ((bulletsHitEnemies rgF rv s).bullets).Sublist s.bullets) :=
  ⟨findHit_some_spec, findHit_none_spec,
    fun rg rv i s e j b he hf => processEnemy_hit rg rv i s e j b he hf,
    fun rg rv i s e he hf => (processEnemy_no_hit rg rv i s).2 e he hf,
    fun rgF rv s => bhLoop_bullets_sublist rgF rv s.enemies.length s⟩

/-- Witness for C9: a tank at the origin scanned against a single
overlapping player bullet — the scan finds it at index 0, it is a
player bullet overlapping the tank, and processing removes it while
the tank survives with 4 - 1 = 3 hp. -/
theorem bullet_pass_one_hit_witness :
    ((⟨1, 0, 0, 100, [spawnEnemy 1 .tank 0 0], [⟨0, 0, 4, 1, true, false⟩], [], 0⟩ :
        GState).bullets)[0]? = some ⟨0, 0, 4, 1, true, false⟩ ∧
    (⟨0, 0, 4, 1, true, false⟩ : Bullet).fromPlayer = true ∧
    overlapEB (spawnEnemy 1 .tank 0 0) ⟨0, 0, 4, 1, true, false⟩ = true ∧
    (processEnemy 0 (fun _ => 0) 0
        ⟨1, 0, 0, 100, [spawnEnemy 1 .tank 0 0], [⟨0, 0, 4, 1, true, false⟩], [], 0⟩).bullets =
      ([⟨0, 0, 4, 1, true, false⟩] : List Bullet).eraseIdx 0 := by
  have hfind : findHit (spawnEnemy 1 .tank 0 0)
      [(⟨0, 0, 4, 1, true, false⟩ : Bullet)] = some (0, ⟨0, 0, 4, 1, true, false⟩) := by
    norm_num [findHit, overlapEB, hypotLt, spawnEnemy]
  have h1 := bullet_pass_one_hit.1 (spawnEnemy 1 .tank 0 0)
    [⟨0, 0, 4, 1, true, false⟩] 0 ⟨0, 0, 4, 1, true, false⟩ hfind
  have h2 := (bullet_pass_one_hit.2.2.1 0 (fun _ => 0) 0
    ⟨1, 0, 0, 100, [spawnEnemy 1 .tank 0 0], [⟨0, 0, 4, 1, true, false⟩], [], 0⟩
    (spawnEnemy 1 .tank 0 0) 0 ⟨0, 0, 4, 1, true, false⟩ (by simp) hfind).1
  exact ⟨h1.1, h1.2.1, h1.2.2.1, h2⟩

/-- C9 counterexample: one bullets-hitting-enemies pass on
`[normal, bomber, tank]` with three unit-damage player bullets (two on
the tank, one on the bomber).  The visit of index 2 hits the tank
(4 → 3 hp); the visit of index 1 kills the bomber with a bullet, and
the bomber's own explosion splices out the normal enemy AND the
already-dead bomber before the outer splice runs, shrinking the list to
`[tank]`; the visit of index 0 therefore revisits the tank, which takes
a second bullet in the same pass and ends at 2 hp — its hit points were
reduced by two bullets' damage in a single step, refuting the claimed
per-enemy bound. -/
theorem bullet_pass_double_damage_cex :
    cexTank.hp = 4 ∧
    (∀ b ∈ cexS.bullets, b.dmg = 1) ∧
    (bulletsHitEnemies (fun _ => 0) (fun _ => 0) cexS).enemies =
      [{ cexTank with hp := 2 }] := by
  refine ⟨by norm_num [cexTank, spawnEnemy], ?_, ?_⟩
  · intro b hb
    simp only [cexS, List.mem_cons, List.not_mem_nil, or_false] at hb
    rcases hb with h | h | h <;> simp [h, cexBT, cexBB]
  · norm_num [bulletsHitEnemies, bhLoop, processEnemy, findHit, overlapEB, hypotLt,
      explode, explodeEnemies, coinGain, scoreGain, List.eraseIdx, List.set,
      cexS, cexTank, cexBomber, cexNormal, cexBT, cexBB, spawnEnemy]

/-- C10: an `explode` call changes only the enemy list, the pickup list
and the particle burst — the player's health, the score and the coin
balance are exactly those of the state before the call, and so are the
bullets. -/
theorem explode_frame (s : GState) (x y scale : ℚ) (rv : Enemy → ℕ) :
    (explode s x y scale rv).playerHp = s.playerHp ∧
    (explode s x y scale rv).score = s.score ∧
    (explode s x y scale rv).coins = s.coins ∧
    (explode s x y scale rv).bullets = s.bullets := by
  exact ⟨rfl, rfl, rfl, rfl⟩

end ZombieShooter
